import Mathlib

/-!
Shallow embedding of `src/application/browser/linux/installed_applications_root.cc`
(the Crosswalk `InstalledApplicationsManager`: a D-Bus object manager that mirrors
the application store as one exported object per installed application).

Pure data is modelled with `String` and `List`; the D-Bus side effects of each
handler (method export, signal emission, unregistration, destruction, replies)
are reified as an explicit event trace so that ordering claims are statable.
-/

namespace Crosswalk

/-- Application data held by the Application Store: a stable identity and an
opaque property set (the manager only reads these, never mutates them). -/
structure ApplicationData where
  app_id : String
  properties : List (String × String)
  deriving DecidableEq, Repr

/-- Modelled from the spec: `InstalledApplicationObject` (declared in
`installed_application_object.h`, not part of the provided sources) holds the
identity, a path derived deterministically from the identity, the interface
names fixed at construction, and the materialized property set. -/
structure InstalledApplicationObject where
  app_id : String
  path : String
  interfaces : List String
  properties : List (String × String)
  deriving DecidableEq, Repr

/-- Modelled from the spec: the per-application D-Bus interface name advertised
by every exported object (fixed at construction of the object). -/
def kInstalledApplicationInterfaces : List String :=
  ["org.crosswalkproject.Installed.Application"]

/-- Modelled from the spec: the unique object path derived deterministically
from an application identity, rooted under the manager path `/installed`. -/
def objectPath (app_id : String) : String :=
  "/installed/" ++ app_id

/-- The manager's state: the `installed_apps_` ScopedVector of exported object
records, in insertion order. -/
structure ManagerState where
  installed_apps_ : List InstalledApplicationObject
  deriving DecidableEq, Repr

/-- The Application Store's state (external collaborator): the sequence of
currently installed applications. -/
structure StoreState where
  installed : List ApplicationData
  deriving DecidableEq, Repr

/-- Modelled from the spec: `ApplicationService::GetApplicationByID` — lookup
of an installed application's data by identity. -/
def GetApplicationByID (store : StoreState) (app_id : String) :
    Option ApplicationData :=
  store.installed.find? (fun a => app_id == a.app_id)

/-- Observable side effects of the manager, in program order. -/
inductive Event where
  /-- `ExportUninstallMethod`: the object is registered for queries. -/
  | exportUninstall (path : String)
  /-- `installed_apps_.push_back(object)`. -/
  | appended (app_id : String)
  /-- `InterfacesAdded` signal with the object path and full property set. -/
  | interfacesAdded (path : String) (properties : List (String × String))
  /-- `InterfacesRemoved` signal with the object path and its interfaces. -/
  | interfacesRemoved (path : String) (interfaces : List String)
  /-- `bus_->UnregisterExportedObject(path)`. -/
  | unregistered (path : String)
  /-- ScopedVector erase destroys the record. -/
  | destroyed (app_id : String)
  /-- `LOG(WARNING)`. -/
  | logWarning (message : String)
  deriving DecidableEq, Repr

/-- Replies sent through a D-Bus `ResponseSender`. -/
inductive Reply where
  /-- Success response carrying an object path (`OnInstall`). -/
  | successPath (path : String)
  /-- Empty success response (`OnUninstall`). -/
  | successEmpty
  /-- `CreateError` / `ErrorResponse::FromMethodCall` with a message. -/
  | error (message : String)
  deriving DecidableEq, Repr

/-- The predicate of the `MatchAppID` functor: `app_id_ == object->app_id()`. -/
def MatchAppID (app_id : String) (object : InstalledApplicationObject) : Bool :=
  app_id == object.app_id

/-- `InstalledApplicationsManager::CreateObject`: construct the exported object
for `app` and export its Uninstall method (registration for queries). -/
def CreateObject (app : ApplicationData) :
    InstalledApplicationObject × List Event :=
  let object : InstalledApplicationObject :=
    { app_id := app.app_id
      path := objectPath app.app_id
      interfaces := kInstalledApplicationInterfaces
      properties := app.properties }
  (object, [Event.exportUninstall object.path])

/-- `InstalledApplicationsManager::OnApplicationInstalled`: look up the
application data, create and register the object, append it to
`installed_apps_`, then emit `InterfacesAdded`.  Returns `none` when
`GetApplicationByID` finds nothing (the C++ would then dereference a null
pointer; no defined behavior exists to embed). -/
def OnApplicationInstalled (store : StoreState) (s : ManagerState)
    (app_id : String) : Option (ManagerState × List Event) :=
  (GetApplicationByID store app_id).map (fun app =>
    let oc := CreateObject app
    ({ installed_apps_ := s.installed_apps_ ++ [oc.1] },
     oc.2 ++ [Event.appended oc.1.app_id,
              Event.interfacesAdded oc.1.path oc.1.properties]))

/-- `InstalledApplicationsManager::OnApplicationUninstalled`: find the first
record matching `app_id`; if absent, log a warning and return; if present,
emit `InterfacesRemoved` (with the path and interfaces captured from the
record), unregister the exported object, then erase (destroy) the record. -/
def OnApplicationUninstalled (s : ManagerState) (app_id : String) :
    ManagerState × List Event :=
  match s.installed_apps_.find? (MatchAppID app_id) with
  | none =>
      (s, [Event.logWarning "Notified about uninstallation of unknown app_id."])
  | some object =>
      ({ installed_apps_ := s.installed_apps_.eraseP (MatchAppID app_id) },
       [Event.interfacesRemoved object.path object.interfaces,
        Event.unregistered object.path,
        Event.destroyed object.app_id])

/-- `InstalledApplicationsManager::CreateInitialObjects`: one record per
application already installed in the store; no notifications are emitted. -/
def CreateInitialObjects (store : StoreState) : ManagerState :=
  { installed_apps_ := store.installed.map (fun app => (CreateObject app).1) }

/-- `InstalledApplicationsManager::OnGetManagedObjects`: the response body,
one `(path, property set)` entry per record in `installed_apps_` order. -/
def OnGetManagedObjects (s : ManagerState) :
    List (String × List (String × String)) :=
  s.installed_apps_.map (fun installed_app =>
    (installed_app.path, installed_app.properties))

/-- The combined state of the Application Store and the manager mirroring it. -/
structure World where
  store : StoreState
  mgr : ManagerState
  deriving DecidableEq, Repr

/-- Modelled from the spec: `base::FilePath::IsAbsolute` for a POSIX path —
the path begins with the separator. -/
def IsAbsolute (path : String) : Bool :=
  match path.data with
  | [] => false
  | c :: _ => c == '/'

/-- Modelled from the spec: `ApplicationService::Install(path, &id)`.  The
package-validation outcome is external, so it is a parameter: `none` means the
store rejects the package, `some app` means it accepts it as `app`.  On
success the store records the application and, by contract, synchronously
notifies its observer (`OnApplicationInstalled`) before returning the
success flag and the new identity.  Returns `none` only if the synchronous
observer callback hit the undefined null-lookup case (never reachable after
a successful install). -/
def ServiceInstall (w : World) (accepted : Option ApplicationData) :
    Option (World × Bool × String × List Event) :=
  match accepted with
  | none => some (w, false, "", [])
  | some app =>
      let store : StoreState := { installed := w.store.installed ++ [app] }
      (OnApplicationInstalled store w.mgr app.app_id).map (fun p =>
        ({ store := store, mgr := p.1 }, true, app.app_id, p.2))

/-- Modelled from the spec: `ApplicationService::Uninstall(id)`.  Whether the
store accepts the removal is external (`accepted`).  On success the store
drops the application and synchronously notifies its observer
(`OnApplicationUninstalled`) before returning the success flag. -/
def ServiceUninstall (w : World) (accepted : Bool) (app_id : String) :
    World × Bool × List Event :=
  if accepted then
    let store : StoreState :=
      { installed := w.store.installed.eraseP (fun a => app_id == a.app_id) }
    let r := OnApplicationUninstalled w.mgr app_id
    ({ store := store, mgr := r.1 }, true, r.2)
  else (w, false, [])

/-- Outcome of `InstalledApplicationsManager::OnInstall`: either a reply was
sent from a resulting world, or the `CHECK` aborted the process, or execution
entered the undefined null-lookup case of the observer callback. -/
inductive InstallReturn where
  | ok (w : World) (reply : Reply)
  /-- `CHECK(it != installed_apps_.end())` failed: fatal process abort. -/
  | fatalCheck
  /-- `GetApplicationByID` found nothing inside the observer callback. -/
  | undefinedBehavior
  deriving DecidableEq, Repr

/-- The tail of `OnInstall` after the service reported a successful install:
locate the record by identity; `CHECK` aborts if it is absent; otherwise reply
with the record's object path. -/
def OnInstallAfterSuccess (w : World) (app_id : String) : InstallReturn :=
  match w.mgr.installed_apps_.find? (MatchAppID app_id) with
  | none => InstallReturn.fatalCheck
  | some object => InstallReturn.ok w (Reply.successPath object.path)

/-- `InstalledApplicationsManager::OnInstall`: pop the path string (a `none`
message models `PopString` failure), reject non-absolute paths before any
store interaction, delegate to the service's install, reply `InstallFailed`
with the original path on store failure, and otherwise reply with the path of
the record the synchronous observer callback created. -/
def OnInstall (w : World) (message : Option String)
    (accepted : Option ApplicationData) : InstallReturn × List Event :=
  match message with
  | none => (InstallReturn.ok w (Reply.error "Error parsing message."), [])
  | some file_path_str =>
      if !IsAbsolute file_path_str then
        (InstallReturn.ok w (Reply.error "Path to install must be absolute."),
         [])
      else
        match ServiceInstall w accepted with
        | none => (InstallReturn.undefinedBehavior, [])
        | some (w1, ok, app_id, events) =>
            if !ok then
              (InstallReturn.ok w1 (Reply.error
                ("Error installing application with path: " ++ file_path_str)),
               events)
            else
              (OnInstallAfterSuccess w1 app_id, events)

/-- `InstalledApplicationsManager::OnUninstall` (per-object handler, the
object's identity bound as first parameter): delegate to the service's
uninstall for that identity; on failure reply `UninstallFailed` naming the
identity; on success send an empty success reply.  The state mutation
(including the synchronous destruction of the record) happens inside
`ServiceUninstall`. -/
def OnUninstall (w : World) (accepted : Bool) (obj_app_id : String) :
    World × Reply × List Event :=
  let r := ServiceUninstall w accepted obj_app_id
  if !r.2.1 then
    (r.1,
     Reply.error
       ("Error trying to uninstall application with id " ++ obj_app_id),
     r.2.2)
  else
    (r.1, Reply.successEmpty, r.2.2)

/-- The handler's accesses to the bound `installed_app_object`, to the store
mutation, and to the response sender, in the evaluation order of
`InstalledApplicationsManager::OnUninstall`. -/
inductive Access where
  /-- A call to `installed_app_object->app_id()`. -/
  | readAppId
  /-- The call to `application_service_->Uninstall(...)`. -/
  | callStoreUninstall
  /-- `response_sender.Run(...)`. -/
  | sendReply
  deriving DecidableEq, Repr

/-- Access trace of `OnUninstall` as written in the source: the identity is
read to build the argument of `Uninstall`; on the failure branch the error
message reads `installed_app_object->app_id()` a second time, after the
store call has returned; the success branch touches only the method call. -/
def OnUninstallAccessTrace (storeAccepted : Bool) : List Access :=
  if storeAccepted then
    [Access.readAppId, Access.callStoreUninstall, Access.sendReply]
  else
    [Access.readAppId, Access.callStoreUninstall,
     Access.readAppId, Access.sendReply]

/-- An operation performed against the Application Store (by the manager's own
commands or by any other client of the store). -/
inductive StoreOp where
  | install (app : ApplicationData)
  | uninstall (app_id : String)
  deriving DecidableEq, Repr

/-- Modelled from the spec: one settled store operation together with the
synchronous observer notification it delivers to the manager.  The store keys
applications by identity, so an install of an already-present identity and an
uninstall of an absent identity are rejected without any state change or
observer callback; an effective mutation notifies the observer synchronously
before the operation settles.  (The fallback arm of the install case is
unreachable: the identity was just added to the store, so the observer's
lookup succeeds.) -/
def WorldStep (w : World) (op : StoreOp) : World :=
  match op with
  | StoreOp.install app =>
      if w.store.installed.any (fun a => app.app_id == a.app_id) then w
      else
        match ServiceInstall w (some app) with
        | some (w1, _, _, _) => w1
        | none => w
  | StoreOp.uninstall app_id =>
      if w.store.installed.any (fun a => app_id == a.app_id) then
        (ServiceUninstall w true app_id).1
      else w

/-- Manager startup against a store already holding `store`: enumerate the
installed applications and create one record per entry. -/
def initialWorld (store : StoreState) : World :=
  { store := store, mgr := CreateInitialObjects store }

/-- The identities currently installed in the store, in store order. -/
def storeIds (store : StoreState) : List String :=
  store.installed.map (fun a => a.app_id)

/-- The identities held by the manager's `installed_apps_` collection. -/
def mgrIds (s : ManagerState) : List String :=
  s.installed_apps_.map (fun object => object.app_id)

/-- Spec invariant I1 as the inductive invariant of the mirror: the manager's
identities coincide (in order) with the store's identities, the store holds no
duplicate identity, and every record's path is derived from its identity. -/
def MirrorInvariant (w : World) : Prop :=
  mgrIds w.mgr = storeIds w.store ∧
  (storeIds w.store).Nodup ∧
  ∀ r ∈ w.mgr.installed_apps_, r.path = objectPath r.app_id

/-- Recognizer for `InterfacesAdded` events. -/
def isInterfacesAdded : Event → Bool
  | Event.interfacesAdded _ _ => true
  | _ => false

/-- Recognizer for `InterfacesRemoved` events. -/
def isInterfacesRemoved : Event → Bool
  | Event.interfacesRemoved _ _ => true
  | _ => false

/-! ## Helper lemmas -/

@[simp]
theorem CreateObject_app_id (app : ApplicationData) :
    (CreateObject app).1.app_id = app.app_id := rfl

@[simp]
theorem CreateObject_path (app : ApplicationData) :
    (CreateObject app).1.path = objectPath app.app_id := rfl

theorem GetApplicationByID_app_id {store : StoreState} {id : String}
    {app : ApplicationData} (h : GetApplicationByID store id = some app) :
    app.app_id = id := by
  unfold GetApplicationByID at h
  have hp : (fun a : ApplicationData => id == a.app_id) app = true :=
    @List.find?_some _ (fun a : ApplicationData => id == a.app_id) app
      store.installed h
  exact (beq_iff_eq.1 hp).symm

theorem GetApplicationByID_concat (store : StoreState)
    (app : ApplicationData) :
    ∃ found,
      GetApplicationByID { installed := store.installed ++ [app] }
          app.app_id = some found ∧
      found.app_id = app.app_id := by
  unfold GetApplicationByID
  simp only [List.find?_append]
  cases hf : store.installed.find? (fun a => app.app_id == a.app_id) with
  | none => exact ⟨app, by simp [hf], rfl⟩
  | some x =>
      have hp : (fun a : ApplicationData => app.app_id == a.app_id) x = true :=
        @List.find?_some _ (fun a : ApplicationData => app.app_id == a.app_id)
          x store.installed hf
      exact ⟨x, by simp [hf], (beq_iff_eq.1 hp).symm⟩

theorem find?_concat_of_pred {α : Type} (p : α → Bool) (l : List α) (a : α)
    (h : p a = true) :
    ∃ r, (l ++ [a]).find? p = some r ∧ p r = true := by
  simp only [List.find?_append]
  cases hf : l.find? p with
  | none => exact ⟨a, by simp [hf, h], h⟩
  | some x => exact ⟨x, by simp [hf], List.find?_some hf⟩

theorem find?_some_of_mem {α : Type} (p : α → Bool) (l : List α) (a : α)
    (ha : a ∈ l) (hp : p a = true) :
    ∃ r, l.find? p = some r ∧ p r = true := by
  cases hf : l.find? p with
  | none => exact absurd hp (List.find?_eq_none.1 hf a ha)
  | some x => exact ⟨x, rfl, List.find?_some hf⟩

theorem eraseP_map_comm {α β : Type} (f : α → β) (p : β → Bool) :
    ∀ l : List α,
      (l.eraseP (fun a => p (f a))).map f = (l.map f).eraseP p := by
  intro l
  induction l with
  | nil => rfl
  | cons a t ih =>
      by_cases hpa : p (f a) = true
      · simp [List.eraseP_cons, hpa]
      · simp [List.eraseP_cons, hpa, ih]

theorem mirrorInvariant_initial (store : StoreState)
    (h : (storeIds store).Nodup) : MirrorInvariant (initialWorld store) := by
  refine ⟨?_, h, ?_⟩
  · simp only [initialWorld, mgrIds, storeIds, CreateInitialObjects,
               List.map_map]
    rfl
  · intro r hr
    simp only [initialWorld, CreateInitialObjects] at hr
    obtain ⟨a, _, rfl⟩ := List.mem_map.1 hr
    simp

theorem mirrorInvariant_step (w : World) (op : StoreOp)
    (h : MirrorInvariant w) : MirrorInvariant (WorldStep w op) := by
  obtain ⟨hids, hnodup, hpaths⟩ := h
  cases op with
  | install app =>
      by_cases hdup :
          w.store.installed.any (fun a => app.app_id == a.app_id) = true
      · have hws : WorldStep w (StoreOp.install app) = w := by
          simp [WorldStep, hdup]
        rw [hws]
        exact ⟨hids, hnodup, hpaths⟩
      · have hfalse :
            w.store.installed.any (fun a => app.app_id == a.app_id) = false :=
          by simpa using hdup
        have hfresh : ∀ a ∈ w.store.installed,
            (app.app_id == a.app_id) = false := by
          intro a ha
          simpa using List.any_eq_false.1 hfalse a ha
        have hnone :
            w.store.installed.find? (fun a => app.app_id == a.app_id) =
              none :=
          List.find?_eq_none.2 (fun x hx => by simp [hfresh x hx])
        have hget : GetApplicationByID
            { installed := w.store.installed ++ [app] } app.app_id =
              some app := by
          unfold GetApplicationByID
          rw [List.find?_append, hnone]
          simp
        have hws : WorldStep w (StoreOp.install app) =
            { store := { installed := w.store.installed ++ [app] },
              mgr := { installed_apps_ :=
                         w.mgr.installed_apps_ ++ [(CreateObject app).1] } } := by
          simp [WorldStep, hfalse, ServiceInstall, OnApplicationInstalled,
                hget]
        rw [hws]
        refine ⟨?_, ?_, ?_⟩
        · simp only [mgrIds, storeIds] at hids ⊢
          simp [hids]
        · simp only [storeIds] at hnodup ⊢
          simp only [List.map_append, List.map_cons, List.map_nil]
          rw [List.nodup_append]
          refine ⟨hnodup, List.nodup_singleton _, ?_⟩
          intro x hx hx2
          have hxeq : x = app.app_id := by simpa using hx2
          subst hxeq
          obtain ⟨a, ha, hax⟩ := List.mem_map.1 hx
          exact (beq_eq_false_iff_ne.1 (hfresh a ha)) hax.symm
        · intro r hr
          rcases List.mem_append.1 hr with h1 | h1
          · exact hpaths r h1
          · have : r = (CreateObject app).1 := by simpa using h1
            subst this
            simp
  | uninstall app_id =>
      by_cases hin :
          w.store.installed.any (fun a => app_id == a.app_id) = true
      · obtain ⟨x, hxmem, hxid⟩ := List.any_eq_true.1 hin
        have hb : (app_id == x.app_id) = true := hxid
        have hid : app_id = x.app_id := beq_iff_eq.1 hb
        have hmemids : app_id ∈ w.mgr.installed_apps_.map
            (fun o => o.app_id) := by
          have hmem : app_id ∈ storeIds w.store :=
            List.mem_map.2 ⟨x, hxmem, hid.symm⟩
          rw [← hids] at hmem
          simpa only [mgrIds] using hmem
        obtain ⟨r0, hr0mem, hr0⟩ := List.mem_map.1 hmemids
        obtain ⟨robj, hfind, hpr⟩ := find?_some_of_mem (MatchAppID app_id)
          w.mgr.installed_apps_ r0 hr0mem (by simp [MatchAppID, hr0])
        have hws : WorldStep w (StoreOp.uninstall app_id) =
            { store := { installed := w.store.installed.eraseP
                           (fun a => app_id == a.app_id) },
              mgr := { installed_apps_ := w.mgr.installed_apps_.eraseP
                         (MatchAppID app_id) } } := by
          simp [WorldStep, hin, ServiceUninstall, OnApplicationUninstalled,
                hfind]
        rw [hws]
        refine ⟨?_, ?_, ?_⟩
        · simp only [mgrIds, storeIds] at hids ⊢
          calc (w.mgr.installed_apps_.eraseP (MatchAppID app_id)).map
                (fun o => o.app_id)
              = (w.mgr.installed_apps_.map (fun o => o.app_id)).eraseP
                  (fun t => app_id == t) :=
                eraseP_map_comm (fun o : InstalledApplicationObject =>
                  o.app_id) (fun t => app_id == t) w.mgr.installed_apps_
            _ = (w.store.installed.map (fun a => a.app_id)).eraseP
                  (fun t => app_id == t) := by rw [hids]
            _ = (w.store.installed.eraseP
                  (fun a => app_id == a.app_id)).map (fun a => a.app_id) :=
                (eraseP_map_comm (fun a : ApplicationData => a.app_id)
                  (fun t => app_id == t) w.store.installed).symm
        · simp only [storeIds] at hnodup ⊢
          exact List.Nodup.sublist ((List.eraseP_sublist _).map _) hnodup
        · intro r hr
          exact hpaths r ((List.eraseP_sublist _).subset hr)
      · have hws : WorldStep w (StoreOp.uninstall app_id) = w := by
          simp [WorldStep, hin]
        rw [hws]
        exact ⟨hids, hnodup, hpaths⟩

theorem mirrorInvariant_run (ops : List StoreOp) :
    ∀ w : World, MirrorInvariant w →
      MirrorInvariant (ops.foldl WorldStep w) := by
  induction ops with
  | nil => intro w h; exact h
  | cons op t ih => intro w h; exact ih _ (mirrorInvariant_step w op h)

/-! ## Claim theorems -/

/-- C1: starting from the startup enumeration of a store with no duplicate
identities, after any sequence of settled install/uninstall operations
against the store the identities of `installed_apps_` equal exactly the
store's installed identities — no duplicates, no stale entries — and hence
the addresses returned by `GetManagedObjects` are exactly the image of the
store's identities under the path derivation. -/
theorem C1_mirror_invariant (store0 : StoreState)
    (h : (storeIds store0).Nodup) (ops : List StoreOp) :
    mgrIds (ops.foldl WorldStep (initialWorld store0)).mgr =
      storeIds (ops.foldl WorldStep (initialWorld store0)).store ∧
    (mgrIds (ops.foldl WorldStep (initialWorld store0)).mgr).Nodup ∧
    (OnGetManagedObjects
        (ops.foldl WorldStep (initialWorld store0)).mgr).map Prod.fst =
      (storeIds (ops.foldl WorldStep (initialWorld store0)).store).map
        objectPath := by
  obtain ⟨hids, hnodup, hpaths⟩ :=
    mirrorInvariant_run ops (initialWorld store0)
      (mirrorInvariant_initial store0 h)
  refine ⟨hids, hids.symm ▸ hnodup, ?_⟩
  have h1 : (OnGetManagedObjects
      (ops.foldl WorldStep (initialWorld store0)).mgr).map Prod.fst =
        ((ops.foldl WorldStep (initialWorld store0)).mgr.installed_apps_).map
          (fun o => o.path) := by
    simp only [OnGetManagedObjects, List.map_map]
    rfl
  have h3 : (mgrIds (ops.foldl WorldStep (initialWorld store0)).mgr).map
      objectPath =
        ((ops.foldl WorldStep (initialWorld store0)).mgr.installed_apps_).map
          (fun o => objectPath o.app_id) := by
    simp only [mgrIds, List.map_map]
    rfl
  rw [h1, List.map_congr_left (fun a ha => hpaths a ha), ← hids, h3]

/-- C1 witness: a store holding `app.a`, then an install of `app.b` and an
uninstall of `app.a`. -/
theorem C1_mirror_invariant_witness :
    mgrIds ([StoreOp.install { app_id := "app.b", properties := [] },
             StoreOp.uninstall "app.a"].foldl WorldStep
        (initialWorld
          { installed := [{ app_id := "app.a", properties := [] }] })).mgr =
      storeIds ([StoreOp.install { app_id := "app.b", properties := [] },
                 StoreOp.uninstall "app.a"].foldl WorldStep
        (initialWorld
          { installed := [{ app_id := "app.a", properties := [] }] })).store ∧
    (mgrIds ([StoreOp.install { app_id := "app.b", properties := [] },
              StoreOp.uninstall "app.a"].foldl WorldStep
        (initialWorld
          { installed := [{ app_id := "app.a",
                            properties := [] }] })).mgr).Nodup ∧
    (OnGetManagedObjects
        ([StoreOp.install { app_id := "app.b", properties := [] },
          StoreOp.uninstall "app.a"].foldl WorldStep
          (initialWorld
            { installed := [{ app_id := "app.a",
                              properties := [] }] })).mgr).map Prod.fst =
      (storeIds ([StoreOp.install { app_id := "app.b", properties := [] },
                  StoreOp.uninstall "app.a"].foldl WorldStep
        (initialWorld
          { installed := [{ app_id := "app.a",
                            properties := [] }] })).store).map objectPath :=
  C1_mirror_invariant
    { installed := [{ app_id := "app.a", properties := [] }] } (by decide)
    [StoreOp.install { app_id := "app.b", properties := [] },
     StoreOp.uninstall "app.a"]

/-- C3: when a record for `app_id` is present, `OnApplicationUninstalled`
emits exactly one `InterfacesRemoved` notification carrying that record's path
and interfaces (captured from the record), then unregisters the object, then
removes and destroys the record — notification strictly before unregistration
strictly before destruction. -/
theorem C3_removal_ordering (s : ManagerState) (app_id : String)
    (object : InstalledApplicationObject)
    (h : s.installed_apps_.find? (MatchAppID app_id) = some object) :
    OnApplicationUninstalled s app_id =
      ({ installed_apps_ := s.installed_apps_.eraseP (MatchAppID app_id) },
       [Event.interfacesRemoved object.path object.interfaces,
        Event.unregistered object.path,
        Event.destroyed object.app_id]) ∧
    ((OnApplicationUninstalled s app_id).2.countP isInterfacesRemoved) = 1 := by
  constructor
  · simp [OnApplicationUninstalled, h]
  · simp [OnApplicationUninstalled, h, isInterfacesRemoved]

/-- C3 witness: removal of the only record of a one-element collection. -/
theorem C3_removal_ordering_witness :
    OnApplicationUninstalled
        { installed_apps_ := [{ app_id := "app.a", path := "/installed/app.a",
                                interfaces := ["org.crosswalkproject.Installed.Application"],
                                properties := [("name", "A")] }] } "app.a" =
      ({ installed_apps_ := [] },
       [Event.interfacesRemoved "/installed/app.a"
          ["org.crosswalkproject.Installed.Application"],
        Event.unregistered "/installed/app.a",
        Event.destroyed "app.a"]) :=
  And.left (C3_removal_ordering _ "app.a"
    { app_id := "app.a", path := "/installed/app.a",
      interfaces := ["org.crosswalkproject.Installed.Application"],
      properties := [("name", "A")] } (by decide))

/-- C4: `OnApplicationInstalled` constructs the exported object, registers it
(exports its Uninstall method), appends it to the collection, and only then
emits exactly one `InterfacesAdded` notification with the new object's path
and property set — registration strictly before the notification. -/
theorem C4_addition_ordering (store : StoreState) (s : ManagerState)
    (app_id : String) (app : ApplicationData)
    (h : GetApplicationByID store app_id = some app) :
    OnApplicationInstalled store s app_id =
      some ({ installed_apps_ := s.installed_apps_ ++ [(CreateObject app).1] },
            [Event.exportUninstall (objectPath app.app_id),
             Event.appended app.app_id,
             Event.interfacesAdded (objectPath app.app_id) app.properties]) ∧
    (([Event.exportUninstall (objectPath app.app_id),
       Event.appended app.app_id,
       Event.interfacesAdded (objectPath app.app_id)
         app.properties].countP isInterfacesAdded) = 1) := by
  constructor
  · simp [OnApplicationInstalled, h, CreateObject]
  · simp [isInterfacesAdded]

/-- C4 witness: installing `app.b` into an empty collection. -/
theorem C4_addition_ordering_witness :
    OnApplicationInstalled
        { installed := [{ app_id := "app.b", properties := [("name", "B")] }] }
        { installed_apps_ := [] } "app.b" =
      some ({ installed_apps_ :=
                [(CreateObject { app_id := "app.b",
                                 properties := [("name", "B")] }).1] },
            [Event.exportUninstall (objectPath "app.b"),
             Event.appended "app.b",
             Event.interfacesAdded (objectPath "app.b") [("name", "B")]]) :=
  And.left (C4_addition_ordering _ _ "app.b"
    { app_id := "app.b", properties := [("name", "B")] } (by decide))

/-- C6: an Install call whose path argument is not absolute is answered with
the error "Path to install must be absolute." without any store interaction:
for every store outcome the result is the same, the world is unchanged, and
no event (in particular no notification) is emitted. -/
theorem C6_install_rejects_relative_path (w : World) (path : String)
    (accepted : Option ApplicationData) (h : IsAbsolute path = false) :
    OnInstall w (some path) accepted =
      (InstallReturn.ok w (Reply.error "Path to install must be absolute."),
       []) := by
  simp [OnInstall, h]

/-- C6 witness: installing a relative path with a store that would accept. -/
theorem C6_install_rejects_relative_path_witness :
    OnInstall (initialWorld { installed := [] }) (some "relative/path.pkg")
        (some { app_id := "app.b", properties := [] }) =
      (InstallReturn.ok (initialWorld { installed := [] })
         (Reply.error "Path to install must be absolute."), []) :=
  C6_install_rejects_relative_path _ _ _ (by decide)

/-- C7: an Install call with an absolute path that the store rejects is
answered with exactly one InstallFailed error carrying the original path, the
world is unchanged (no record created) and no event is emitted. -/
theorem C7_install_store_failure (w : World) (path : String)
    (h : IsAbsolute path = true) :
    OnInstall w (some path) none =
      (InstallReturn.ok w
         (Reply.error ("Error installing application with path: " ++ path)),
       []) := by
  simp [OnInstall, ServiceInstall, h]

/-- C7 witness: a rejected install of an absolute path. -/
theorem C7_install_store_failure_witness :
    OnInstall (initialWorld { installed := [] }) (some "/abs/app-b.pkg")
        none =
      (InstallReturn.ok (initialWorld { installed := [] })
         (Reply.error
            "Error installing application with path: /abs/app-b.pkg"),
       []) :=
  C7_install_store_failure _ _ (by decide)

/-- C9: an `OnApplicationUninstalled` callback for an identity with no record
logs a warning and returns: the collection is unchanged, no notification or
unregistration event is emitted, and no fatal error is raised. -/
theorem C9_unknown_uninstall_noop (s : ManagerState) (app_id : String)
    (h : s.installed_apps_.find? (MatchAppID app_id) = none) :
    OnApplicationUninstalled s app_id =
      (s,
       [Event.logWarning
          "Notified about uninstallation of unknown app_id."]) := by
  simp [OnApplicationUninstalled, h]

/-- C9 witness: uninstall notification for an unknown identity. -/
theorem C9_unknown_uninstall_noop_witness :
    OnApplicationUninstalled
        { installed_apps_ := [{ app_id := "app.a", path := "/installed/app.a",
                                interfaces := ["org.crosswalkproject.Installed.Application"],
                                properties := [] }] } "app.z" =
      ({ installed_apps_ := [{ app_id := "app.a", path := "/installed/app.a",
                               interfaces := ["org.crosswalkproject.Installed.Application"],
                               properties := [] }] },
       [Event.logWarning
          "Notified about uninstallation of unknown app_id."]) :=
  C9_unknown_uninstall_noop _ "app.z" (by decide)

/-- C2 counterexample: on the failure path of `OnUninstall` the handler does
read the object's state after the store's Uninstall call has returned — the
error message re-reads `installed_app_object->app_id()` (trace position 2,
after the store call at position 1), so the claim that no read happens after
the mutation on the failure path is false of the code. -/
theorem C2_reentrancy_counterexample :
    OnUninstallAccessTrace false =
      [Access.readAppId, Access.callStoreUninstall,
       Access.readAppId, Access.sendReply] ∧
    Access.readAppId ∈ (OnUninstallAccessTrace false).drop 2 := by
  decide

/-- C2 (amended): the identity is read before the store's Uninstall call on
every path; on the success path — the one on which the object has been
destroyed — no read of the object occurs after the mutation returns and the
success reply carries no object data; on the failure path the handler
re-reads the object's identity after the mutation returns, which is safe
because a failed uninstall leaves the world (and hence the object) untouched. -/
theorem C2_reentrancy_success_path :
    (∀ b, (OnUninstallAccessTrace b).take 2 =
        [Access.readAppId, Access.callStoreUninstall]) ∧
    Access.readAppId ∉ (OnUninstallAccessTrace true).drop 2 ∧
    Access.readAppId ∈ (OnUninstallAccessTrace false).drop 2 ∧
    (∀ w id, (OnUninstall w false id).1 = w) := by
  refine ⟨?_, by decide, by decide, ?_⟩
  · intro b; cases b <;> rfl
  · intro w id; rfl

/-- C8: a per-object Uninstall call that the store rejects is answered with
exactly one UninstallFailed error naming the identity, emits no event, and
leaves the world unchanged: the target object is still in the collection and
still listed by `GetManagedObjects`. -/
theorem C8_uninstall_store_failure (w : World)
    (object : InstalledApplicationObject)
    (h : object ∈ w.mgr.installed_apps_) :
    OnUninstall w false object.app_id =
      (w,
       Reply.error
         ("Error trying to uninstall application with id " ++ object.app_id),
       []) ∧
    object ∈ (OnUninstall w false object.app_id).1.mgr.installed_apps_ ∧
    (object.path, object.properties) ∈
      OnGetManagedObjects (OnUninstall w false object.app_id).1.mgr := by
  refine ⟨rfl, h, ?_⟩
  simp only [OnUninstall, ServiceUninstall, OnGetManagedObjects]
  exact List.mem_map.2 ⟨object, h, rfl⟩

/-- C8 witness: the store rejects uninstalling the only installed app. -/
theorem C8_uninstall_store_failure_witness :
    OnUninstall
        { store := { installed := [{ app_id := "app.a", properties := [] }] },
          mgr := { installed_apps_ :=
                     [{ app_id := "app.a", path := "/installed/app.a",
                        interfaces := ["org.crosswalkproject.Installed.Application"],
                        properties := [] }] } } false "app.a" =
      ({ store := { installed := [{ app_id := "app.a", properties := [] }] },
         mgr := { installed_apps_ :=
                    [{ app_id := "app.a", path := "/installed/app.a",
                       interfaces := ["org.crosswalkproject.Installed.Application"],
                       properties := [] }] } },
       Reply.error "Error trying to uninstall application with id app.a",
       []) :=
  And.left (C8_uninstall_store_failure _
    { app_id := "app.a", path := "/installed/app.a",
      interfaces := ["org.crosswalkproject.Installed.Application"],
      properties := [] } (by decide))

/-- C5: when the store reports a successful install, the synchronous observer
callback has already placed a record for the new identity in the collection,
`OnInstall`'s lookup finds it, and the reply is a success response carrying
exactly that record's object path; and whenever the post-success lookup finds
no record for the reported identity, the `CHECK` aborts the process fatally
instead of replying. -/
theorem C5_install_success_postcondition :
    (∀ w path app, IsAbsolute path = true →
      ∃ w1 object,
        (OnInstall w (some path) (some app)).1 =
          InstallReturn.ok w1 (Reply.successPath object.path) ∧
        w1.mgr.installed_apps_.find? (MatchAppID app.app_id) = some object ∧
        object.app_id = app.app_id) ∧
    (∀ w app_id, w.mgr.installed_apps_.find? (MatchAppID app_id) = none →
      OnInstallAfterSuccess w app_id = InstallReturn.fatalCheck) := by
  constructor
  · intro w path app h
    obtain ⟨found, hfound, hfid⟩ := GetApplicationByID_concat w.store app
    obtain ⟨r, hr, hpr⟩ := find?_concat_of_pred (MatchAppID app.app_id)
      w.mgr.installed_apps_ (CreateObject found).1
      (by simp [MatchAppID, hfid])
    refine ⟨{ store := { installed := w.store.installed ++ [app] },
              mgr := { installed_apps_ :=
                         w.mgr.installed_apps_ ++ [(CreateObject found).1] } },
            r, ?_, hr, ?_⟩
    · simp [OnInstall, h, ServiceInstall, OnApplicationInstalled, hfound,
            OnInstallAfterSuccess, hr]
    · have hb : (app.app_id == r.app_id) = true := hpr
      exact (beq_iff_eq.1 hb).symm
  · intro w app_id h
    simp [OnInstallAfterSuccess, h]

/-- C5 witness: a successful install of `app.b` into an empty world. -/
theorem C5_install_success_postcondition_witness :
    ∃ w1 object,
      (OnInstall (initialWorld { installed := [] }) (some "/abs/app-b.pkg")
          (some { app_id := "app.b", properties := [("name", "B")] })).1 =
        InstallReturn.ok w1 (Reply.successPath object.path) ∧
      w1.mgr.installed_apps_.find? (MatchAppID "app.b") = some object ∧
      object.app_id = "app.b" :=
  C5_install_success_postcondition.1 (initialWorld { installed := [] })
    "/abs/app-b.pkg" { app_id := "app.b", properties := [("name", "B")] }
    (by decide)

/-- C10: two `OnApplicationInstalled` callbacks for the same identity with no
intervening uninstall append two records with that identity and the same
derived path (there is no lookup-before-insert), and one subsequent
`OnApplicationUninstalled` for that identity removes only the first matching
record, leaving the second in the collection. -/
theorem C10_duplicate_install_no_dedup (s : ManagerState)
    (store1 store2 : StoreState) (id : String)
    (app1 app2 : ApplicationData)
    (h1 : GetApplicationByID store1 id = some app1)
    (h2 : GetApplicationByID store2 id = some app2)
    (h0 : s.installed_apps_.find? (MatchAppID id) = none) :
    OnApplicationInstalled store1 s id =
      some ({ installed_apps_ := s.installed_apps_ ++ [(CreateObject app1).1] },
            [Event.exportUninstall (objectPath app1.app_id),
             Event.appended app1.app_id,
             Event.interfacesAdded (objectPath app1.app_id)
               app1.properties]) ∧
    OnApplicationInstalled store2
        { installed_apps_ := s.installed_apps_ ++ [(CreateObject app1).1] }
        id =
      some ({ installed_apps_ :=
                s.installed_apps_ ++ [(CreateObject app1).1] ++
                  [(CreateObject app2).1] },
            [Event.exportUninstall (objectPath app2.app_id),
             Event.appended app2.app_id,
             Event.interfacesAdded (objectPath app2.app_id)
               app2.properties]) ∧
    (CreateObject app1).1.app_id = id ∧
    (CreateObject app2).1.app_id = id ∧
    (CreateObject app1).1.path = objectPath id ∧
    (CreateObject app2).1.path = objectPath id ∧
    ((s.installed_apps_ ++ [(CreateObject app1).1] ++
        [(CreateObject app2).1]).countP (MatchAppID id)) = 2 ∧
    (OnApplicationUninstalled
        { installed_apps_ := s.installed_apps_ ++ [(CreateObject app1).1] ++
            [(CreateObject app2).1] } id).1 =
      { installed_apps_ := s.installed_apps_ ++ [(CreateObject app2).1] } := by
  have ha1 : app1.app_id = id := GetApplicationByID_app_id h1
  have ha2 : app2.app_id = id := GetApplicationByID_app_id h2
  have hall : ∀ r ∈ s.installed_apps_, ¬(MatchAppID id r = true) :=
    List.find?_eq_none.1 h0
  have hp1 : MatchAppID id (CreateObject app1).1 = true := by
    simp [MatchAppID, ha1]
  have hp2 : MatchAppID id (CreateObject app2).1 = true := by
    simp [MatchAppID, ha2]
  refine ⟨?_, ?_, by simp [ha1], by simp [ha2], by simp [ha1],
          by simp [ha2], ?_, ?_⟩
  · simp [OnApplicationInstalled, h1, CreateObject]
  · simp [OnApplicationInstalled, h2, CreateObject]
  · rw [List.countP_append, List.countP_append]
    rw [List.countP_eq_zero.2 hall]
    simp [List.countP_cons, hp1, hp2]
  · have hfind : (s.installed_apps_ ++ [(CreateObject app1).1] ++
        [(CreateObject app2).1]).find? (MatchAppID id) =
          some (CreateObject app1).1 := by
      rw [List.append_assoc, List.find?_append, h0]
      simp [List.find?_cons, hp1]
    simp only [OnApplicationUninstalled, hfind]
    rw [List.append_assoc,
        List.eraseP_append_right _ (fun b hb => hall b hb)]
    simp [List.eraseP_cons, hp1]

/-- C10 witness: two installs of identity `app.a` (an update changing the
version property), then one uninstall callback: the collection briefly holds
two records for `app.a` and only the first is removed. -/
theorem C10_duplicate_install_no_dedup_witness :
    ((([] : List InstalledApplicationObject) ++
        [(CreateObject { app_id := "app.a",
                         properties := [("version", "1")] }).1] ++
        [(CreateObject { app_id := "app.a",
                         properties := [("version", "2")] }).1]).countP
      (MatchAppID "app.a")) = 2 ∧
    (OnApplicationUninstalled
        { installed_apps_ := [] ++
            [(CreateObject { app_id := "app.a",
                             properties := [("version", "1")] }).1] ++
            [(CreateObject { app_id := "app.a",
                             properties := [("version", "2")] }).1] }
        "app.a").1 =
      { installed_apps_ := [] ++
          [(CreateObject { app_id := "app.a",
                           properties := [("version", "2")] }).1] } :=
  ⟨(C10_duplicate_install_no_dedup { installed_apps_ := [] }
      { installed := [{ app_id := "app.a", properties := [("version", "1")] }] }
      { installed := [{ app_id := "app.a", properties := [("version", "2")] }] }
      "app.a" _ _ (by decide) (by decide) (by decide)).2.2.2.2.2.2.1,
   (C10_duplicate_install_no_dedup { installed_apps_ := [] }
      { installed := [{ app_id := "app.a", properties := [("version", "1")] }] }
      { installed := [{ app_id := "app.a", properties := [("version", "2")] }] }
      "app.a" _ _ (by decide) (by decide) (by decide)).2.2.2.2.2.2.2⟩

end Crosswalk
